import Mathlib

/-!
Shallow embedding of the certificate-scanner core of the `padecer`
repository (Go), covering:

* `internal/scanner/scanner.go`: `buildCertificateInfo`, `ParseData`,
  `ParseFileWithContext`, `processFiles`;
* `internal/shutdown/manager.go`: `Manager.Wait`.

Conventions of the embedding:

* Timestamps (`time.Time`) are nanoseconds since the epoch, as `Int`
  (Go `time.Time.Sub` yields a `time.Duration`, an integer nanosecond
  count).  `cert.NotAfter.Before(now)` is `notAfter < now`.
* Go's `int(d.Hours() / 24)` converts a float to `int`, truncating
  toward zero.  For the nanosecond magnitudes involved the float
  computation is exact-arithmetic division of the nanosecond count by
  `nsPerDay`, so days-until-expiry is modelled as `Int.tdiv`
  (truncation toward zero), not floor division.
* `time.Now()` is modelled by an explicit clock: a list of `Int`
  samples, consumed one per call site of `time.Now()` (each call to
  `buildCertificateInfo` makes one call).
* `crypto/x509.ParseCertificate` is an external library function; it is
  a parameter `parseCert : List Nat → Option Certificate` (`none`
  models a non-nil error, `some` a successfully parsed certificate).
* `encoding/pem.Decode` repeatedly peels the next PEM block off the
  buffer and returns `nil` when no further block decodes; the byte
  buffer is therefore modelled as the sequence of blocks `pem.Decode`
  successively yields (`blocks`) together with the raw bytes of the
  whole buffer (`raw`) used by the DER fallback path.
-/

/-- Nanoseconds in 24 hours (`24 * time.Hour` in Go). -/
def nsPerDay : Int := 86400 * 1000000000

/-- A parsed X.509 certificate as far as the scanner consumes it
(`crypto/x509.Certificate` fields actually read by the code). -/
structure Certificate where
  notAfter : Int
  serialNumber : Int
  subject : String
  issuer : String
deriving DecidableEq, Inhabited

/-- One PEM block as returned by `encoding/pem.Decode`: its `Type`
header and its decoded binary payload (`Bytes`). -/
structure PemBlock where
  type_ : String
  bytes : List Nat
deriving DecidableEq, Inhabited

/-- A file's bytes, as the parser observes them: `blocks` is the
sequence of PEM blocks that successive `pem.Decode` calls yield from
the buffer, `raw` is the whole buffer handed to the DER fallback. -/
structure FileData where
  blocks : List PemBlock
  raw : List Nat
deriving DecidableEq, Inhabited

/-- `scanner.Parser`: options for record construction. -/
structure Parser where
  includeSubject : Bool
  daysThreshold : Int
deriving DecidableEq, Inhabited

/-- `scanner.CertificateInfo`: one decoded certificate record. -/
structure CertificateInfo where
  path : String
  subject : String
  expirationDate : Int
  daysUntilExpiry : Int
  isExpired : Bool
  isExpiringSoon : Bool
  serialNumber : String
  issuer : String
deriving DecidableEq, Inhabited

/-- Failure cases of the parser (`fmt.Errorf` sites in
`ParseFileWithContext` / `ParseData`). -/
inductive ParseErr where
  /-- "failed to parse certificate" -/
  | parseError : ParseErr
  /-- "no certificates found in file" -/
  | noCertificateFound : ParseErr
  /-- "file size exceeds maximum allowed size" -/
  | fileTooLarge : ParseErr
  /-- "failed to stat file" -/
  | statError : ParseErr
  /-- "failed to read file" -/
  | readError : ParseErr
deriving DecidableEq, Inhabited

/-- `Parser.buildCertificateInfo` from `scanner.go`.  `now` is the
value `time.Now()` returns inside this call; `days` is Go's
`int(cert.NotAfter.Sub(now).Hours() / 24)`, i.e. the nanosecond
difference divided by `nsPerDay` truncated toward zero. -/
def buildCertificateInfo (p : Parser) (fp : String) (cert : Certificate) (now : Int) :
    CertificateInfo :=
  let days : Int := Int.tdiv (cert.notAfter - now) nsPerDay
  { path := fp
    subject := if p.includeSubject then cert.subject else ""
    expirationDate := cert.notAfter
    daysUntilExpiry := days
    isExpired := decide (cert.notAfter < now)
    isExpiringSoon := decide (days ≤ p.daysThreshold) && decide (0 ≤ days)
    serialNumber := toString cert.serialNumber
    issuer := if p.includeSubject then cert.issuer else "" }

/-- The PEM loop of `Parser.ParseData`: walk the decoded blocks in
order, building one record per block of type "CERTIFICATE", failing on
a block whose payload does not parse, silently skipping other block
types.  The clock is threaded: each record consumes one `time.Now()`
sample.  Returns the accumulated records and the remaining clock. -/
def parseDataLoop (parseCert : List Nat → Option Certificate) (p : Parser) (fp : String) :
    List PemBlock → List Int → List CertificateInfo →
    Except ParseErr (List CertificateInfo × List Int)
  | [], clock, acc => .ok (acc, clock)
  | b :: rest, clock, acc =>
    if b.type_ = "CERTIFICATE" then
      match parseCert b.bytes with
      | none => .error .parseError
      | some cert =>
        parseDataLoop parseCert p fp rest clock.tail
          (acc ++ [buildCertificateInfo p fp cert (clock.headD 0)])
    else
      parseDataLoop parseCert p fp rest clock acc

/-- `Parser.ParseData` from `scanner.go`: the PEM loop, then — if it
produced zero records — the whole-buffer DER fallback, then the final
emptiness check that returns "no certificates found in file". -/
def ParseData (parseCert : List Nat → Option Certificate) (p : Parser) (fp : String)
    (d : FileData) (clock : List Int) : Except ParseErr (List CertificateInfo) :=
  match parseDataLoop parseCert p fp d.blocks clock [] with
  | .error e => .error e
  | .ok (certs, clockRest) =>
    let afterFallback : Except ParseErr (List CertificateInfo) :=
      if certs.isEmpty then
        match parseCert d.raw with
        | none => .error .parseError
        | some cert => .ok (certs ++ [buildCertificateInfo p fp cert (clockRest.headD 0)])
      else .ok certs
    match afterFallback with
    | .error e => .error e
    | .ok certs2 => if certs2.isEmpty then .error .noCertificateFound else .ok certs2

/-- Specification-side description of the PEM path of `ParseData`: one
record per block, in block order, the k-th record stamped with the k-th
clock sample.  Used to state refinement of the loop. -/
def pemRecords (parseCert : List Nat → Option Certificate) (p : Parser) (fp : String) :
    List PemBlock → List Int → List CertificateInfo
  | [], _ => []
  | b :: rest, clock =>
    match parseCert b.bytes with
    | some cert =>
      buildCertificateInfo p fp cert (clock.headD 0) ::
        pemRecords parseCert p fp rest clock.tail
    | none => []

/-- A file as seen by `Parser.ParseFileWithContext`: whether `os.Stat`
succeeds, the size it reports, whether reading the content succeeds,
and the content itself. -/
structure SourceFile where
  statOk : Bool
  size : Int
  readOk : Bool
  content : FileData
deriving DecidableEq, Inhabited

/-- `MaxFileSize` from `scanner.go` (100MB). -/
def MaxFileSize : Int := 100 * 1024 * 1024

/-- `Parser.ParseFileWithContext` from `scanner.go`: stat the file,
reject it on the metadata size check alone, only then read the content
and hand it to `ParseData`. -/
def ParseFileWithContext (parseCert : List Nat → Option Certificate) (p : Parser)
    (fp : String) (f : SourceFile) (clock : List Int) :
    Except ParseErr (List CertificateInfo) :=
  if f.statOk = false then .error .statError
  else if MaxFileSize < f.size then .error .fileTooLarge
  else if f.readOk = false then .error .readError
  else ParseData parseCert p fp f.content clock

/-- `scanner.ScanResult`: per-file outcome, certificate records or an
error. -/
structure ScanResult where
  certInfos : List CertificateInfo
  error : Option ParseErr
deriving DecidableEq, Inhabited

/-- The scheduling environment one iteration of the worker loop of
`Scanner.processFiles` observes: whether `ctx.Done()` is ready at the
top-of-loop select, whether `shutdownMgr.IsShuttingDown()` reads true
after the path is received, and whether `ctx.Done()` wins the select
that sends the outcome. -/
structure WorkerStep where
  ctxDone : Bool
  shuttingDown : Bool
  ctxDoneAtSend : Bool
deriving DecidableEq, Inhabited

/-- The environment of an undisturbed iteration: no cancellation, no
shutdown. -/
def idleStep : WorkerStep :=
  { ctxDone := false, shuttingDown := false, ctxDoneAtSend := false }

/-- `Scanner.processFiles` from `scanner.go`, sequentialised for one
worker: `fileCh` is the sequence of paths the worker would receive from
the path queue, `sched` the per-iteration scheduling environment
(`headD` default: no cancellation, no shutdown), `outcomeOf` the
result of `processFileWithContext` for a path.  Returns the paths the
worker consumed from the queue and the outcomes it sent. -/
def processFiles (outcomeOf : String → ScanResult) :
    List String → List WorkerStep → List String × List ScanResult
  | [], _ => ([], [])
  | fp :: rest, sched =>
    let st := sched.headD idleStep
    if st.ctxDone then ([], [])
    else if st.shuttingDown then ([fp], [])
    else if st.ctxDoneAtSend then ([fp], [])
    else
      let r := processFiles outcomeOf rest sched.tail
      (fp :: r.1, outcomeOf fp :: r.2)

/-- The `sync.WaitGroup` counter of `shutdown.Manager` at instant `tm`,
given the timestamped `Add`/`Done` deltas `ops` applied at or before
`tm` (time is an abstract `Nat` instant; `Wait` is called at instant
0). -/
def counterAt (ops : List (Nat × Int)) (tm : Nat) : Int :=
  ((ops.filter fun o => decide (o.1 ≤ tm)).map fun o => o.2).sum

/-- Candidate instants at which the counter can be zero: the call
instant 0 and every delta instant (the counter is a step function, so
it is zero somewhere iff it is zero at one of these), filtered to
those where it is zero. -/
def zeroCandidates (ops : List (Nat × Int)) : List Nat :=
  ((0 :: ops.map fun o => o.1).filter fun tm => decide (counterAt ops tm = 0))

/-- Earliest element of a list of instants. -/
def earliest : List Nat → Option Nat
  | [] => none
  | x :: xs =>
    match earliest xs with
    | none => some x
    | some y => some (min x y)

/-- The instant `wg.Wait()` (hence the `done` channel close) fires:
the earliest instant at which the counter is zero, `none` if it never
is. -/
def wgZeroAt (ops : List (Nat × Int)) : Option Nat := earliest (zeroCandidates ops)

/-- `Manager.Wait` from `manager.go`: the select race between the
`done` channel (closing when the counter reaches zero) and
`time.After(m.t)`.  Returns the instant `Wait` returns: whichever of
the two events fires first. -/
def waitReturnTime (t : Nat) (ops : List (Nat × Int)) : Nat :=
  match wgZeroAt ops with
  | some d => min d t
  | none => t

/-- Concrete sample certificate used to instantiate theorems: expires
exactly one day after epoch. -/
def sampleCert : Certificate := ⟨nsPerDay, 1, "", ""⟩

/-- Concrete stand-in for `x509.ParseCertificate`: payload `[0]` is the
well-formed encoding of `sampleCert`, everything else is malformed. -/
def sampleParseCert : List Nat → Option Certificate :=
  fun bs => if bs = [0] then some sampleCert else none

/-- A PEM block of type "CERTIFICATE" whose payload parses. -/
def certBlock : PemBlock := ⟨"CERTIFICATE", [0]⟩

/-- A PEM block of another type (e.g. a private key preceding the
certificate in the same file). -/
def keyBlock : PemBlock := ⟨"RSA PRIVATE KEY", [9]⟩

/-- A parser with the default 30-day threshold and no subject. -/
def parser30 : Parser := ⟨false, 30⟩

/-! ### Helper lemmas -/

theorem getD_tail_int (l : List Int) (i : Nat) : l.tail.getD i 0 = l.getD (i + 1) 0 := by
  cases l <;> rfl

theorem headD_eq_getD_zero (l : List Int) : l.headD 0 = l.getD 0 0 := by
  cases l <;> rfl

theorem parseDataLoop_ok (parseCert : List Nat → Option Certificate) (p : Parser)
    (fp : String) :
    ∀ (blocks : List PemBlock) (clock : List Int) (acc : List CertificateInfo),
      (∀ b ∈ blocks, b.type_ = "CERTIFICATE") →
      (∀ b ∈ blocks, (parseCert b.bytes).isSome) →
      parseDataLoop parseCert p fp blocks clock acc =
        .ok (acc ++ pemRecords parseCert p fp blocks clock, clock.drop blocks.length)
  | [], clock, acc, _, _ => by simp [parseDataLoop, pemRecords]
  | b :: rest, clock, acc, hT, hP => by
    have hTb : b.type_ = "CERTIFICATE" := hT b (List.mem_cons_self b rest)
    obtain ⟨cert, hcert⟩ :=
      Option.isSome_iff_exists.mp (hP b (List.mem_cons_self b rest))
    have ih := parseDataLoop_ok parseCert p fp rest clock.tail
      (acc ++ [buildCertificateInfo p fp cert (clock.headD 0)])
      (fun x hx => hT x (List.mem_cons_of_mem _ hx))
      (fun x hx => hP x (List.mem_cons_of_mem _ hx))
    have h1 : acc ++ [buildCertificateInfo p fp cert (clock.headD 0)] ++
        pemRecords parseCert p fp rest clock.tail =
        acc ++ buildCertificateInfo p fp cert (clock.headD 0) ::
          pemRecords parseCert p fp rest clock.tail := by simp
    have h2 : List.drop rest.length clock.tail = List.drop (rest.length + 1) clock := by
      cases clock <;> simp
    simp only [parseDataLoop, hTb, if_pos, hcert, ih, pemRecords, List.length_cons]
    rw [h1, h2]

theorem pemRecords_length (parseCert : List Nat → Option Certificate) (p : Parser)
    (fp : String) :
    ∀ (blocks : List PemBlock) (clock : List Int),
      (∀ b ∈ blocks, (parseCert b.bytes).isSome) →
      (pemRecords parseCert p fp blocks clock).length = blocks.length
  | [], _, _ => rfl
  | b :: rest, clock, hP => by
    obtain ⟨cert, hcert⟩ :=
      Option.isSome_iff_exists.mp (hP b (List.mem_cons_self b rest))
    simp [pemRecords, hcert,
      pemRecords_length parseCert p fp rest clock.tail
        (fun x hx => hP x (List.mem_cons_of_mem _ hx))]

theorem pemRecords_getD (parseCert : List Nat → Option Certificate) (p : Parser)
    (fp : String) :
    ∀ (blocks : List PemBlock) (clock : List Int) (i : Nat) (hi : i < blocks.length)
      (cert : Certificate),
      (∀ b ∈ blocks, (parseCert b.bytes).isSome) →
      parseCert (blocks.get ⟨i, hi⟩).bytes = some cert →
      (pemRecords parseCert p fp blocks clock).getD i default =
        buildCertificateInfo p fp cert (clock.getD i 0)
  | b :: rest, clock, 0, _, cert, _, hcert => by
    simp only [List.get] at hcert
    simp only [pemRecords, hcert, List.getD_cons_zero]
    rw [headD_eq_getD_zero]
  | b :: rest, clock, i + 1, hi, cert, hP, hcert => by
    obtain ⟨certb, hcertb⟩ :=
      Option.isSome_iff_exists.mp (hP b (List.mem_cons_self b rest))
    simp only [List.get] at hcert
    have ih := pemRecords_getD parseCert p fp rest clock.tail i
      (by simpa using Nat.lt_of_succ_lt_succ hi) cert
      (fun x hx => hP x (List.mem_cons_of_mem _ hx)) hcert
    simp only [pemRecords, hcertb, List.getD_cons_succ]
    rw [ih, getD_tail_int]

theorem ParseData_eq_pemRecords (parseCert : List Nat → Option Certificate) (p : Parser)
    (fp : String) (blocks : List PemBlock) (raw : List Nat) (clock : List Int)
    (hT : ∀ b ∈ blocks, b.type_ = "CERTIFICATE")
    (hP : ∀ b ∈ blocks, (parseCert b.bytes).isSome)
    (hNe : blocks ≠ []) :
    ParseData parseCert p fp ⟨blocks, raw⟩ clock =
      .ok (pemRecords parseCert p fp blocks clock) := by
  have hloop := parseDataLoop_ok parseCert p fp blocks clock [] hT hP
  have hne2 : pemRecords parseCert p fp blocks clock ≠ [] := by
    cases blocks with
    | nil => exact absurd rfl hNe
    | cons b rest =>
      obtain ⟨cert, hcert⟩ :=
        Option.isSome_iff_exists.mp (hP b (List.mem_cons_self b rest))
      simp [pemRecords, hcert]
  unfold ParseData
  rw [hloop]
  simp [List.isEmpty_iff, hne2]

theorem parseDataLoop_no_cert (parseCert : List Nat → Option Certificate) (p : Parser)
    (fp : String) :
    ∀ (blocks : List PemBlock) (clock : List Int) (acc : List CertificateInfo),
      (∀ b ∈ blocks, b.type_ ≠ "CERTIFICATE") →
      parseDataLoop parseCert p fp blocks clock acc = .ok (acc, clock)
  | [], _, _, _ => rfl
  | b :: rest, clock, acc, h => by
    have hb : b.type_ ≠ "CERTIFICATE" := h b (List.mem_cons_self b rest)
    simp [parseDataLoop, hb,
      parseDataLoop_no_cert parseCert p fp rest clock acc
        (fun x hx => h x (List.mem_cons_of_mem _ hx))]

theorem parseDataLoop_filter (parseCert : List Nat → Option Certificate) (p : Parser)
    (fp : String) :
    ∀ (blocks : List PemBlock) (clock : List Int) (acc : List CertificateInfo),
      parseDataLoop parseCert p fp blocks clock acc =
        parseDataLoop parseCert p fp (blocks.filter fun b => b.type_ == "CERTIFICATE")
          clock acc
  | [], _, _ => rfl
  | b :: rest, clock, acc => by
    by_cases h : b.type_ = "CERTIFICATE"
    · cases hc : parseCert b.bytes with
      | none => simp [parseDataLoop, h, List.filter_cons, hc]
      | some cert =>
        simp [parseDataLoop, h, List.filter_cons, hc,
          parseDataLoop_filter parseCert p fp rest]
    · simp [parseDataLoop, h, List.filter_cons,
        parseDataLoop_filter parseCert p fp rest]

theorem earliest_of_mem :
    ∀ (l : List Nat) (x : Nat), x ∈ l → ∃ m, earliest l = some m ∧ m ≤ x
  | [], x, hx => absurd hx (List.not_mem_nil x)
  | a :: l, x, hx => by
    rcases List.mem_cons.mp hx with rfl | hx
    · cases h : earliest l with
      | none => exact ⟨x, by simp [earliest, h], le_refl x⟩
      | some y => exact ⟨min x y, by simp [earliest, h], min_le_left ..⟩
    · obtain ⟨m, hm, hmx⟩ := earliest_of_mem l x hx
      exact ⟨min a m, by simp [earliest, hm], le_trans (min_le_right ..) hmx⟩

theorem tdiv_neg_cases {x d : Int} (hd : 0 < d) (hx : x < 0) :
    Int.tdiv x d ≤ 0 ∧ (Int.tdiv x d = 0 ↔ -d < x) := by
  obtain ⟨n, rfl⟩ : ∃ n : Nat, x = -(n : Int) := ⟨(-x).toNat, by omega⟩
  obtain ⟨k, rfl⟩ : ∃ k : Nat, d = (k : Int) := ⟨d.toNat, by omega⟩
  rw [Int.neg_tdiv, ← Int.ofNat_tdiv]
  constructor
  · exact neg_nonpos.mpr (Int.natCast_nonneg _)
  · rw [neg_eq_zero, Nat.cast_eq_zero, Nat.div_eq_zero_iff (by omega : 0 < k)]
    constructor <;> intro <;> omega

theorem tdiv_eq_fdiv_of_nonneg {x d : Int} (hx : 0 ≤ x) (hd : 0 ≤ d) :
    Int.tdiv x d = Int.fdiv x d := by
  rw [Int.tdiv_eq_ediv hx hd, Int.fdiv_eq_ediv _ hd]

/-! ### Claim theorems -/

/-- Claim C2, counterexample: a certificate that expired one nanosecond
before the sampled time yields `daysUntilExpiry = 0`, not the
floor value `-1`; the record is expired yet its days-until-expiry is
not strictly negative. -/
theorem c2_counterexample :
    (buildCertificateInfo parser30 "cert.pem" ⟨0, 1, "", ""⟩ 1).isExpired = true ∧
    (buildCertificateInfo parser30 "cert.pem" ⟨0, 1, "", ""⟩ 1).daysUntilExpiry = 0 ∧
    ((buildCertificateInfo parser30 "cert.pem" ⟨0, 1, "", ""⟩ 1).daysUntilExpiry =
      Int.fdiv ((0 : Int) - 1) nsPerDay) = False ∧
    ((buildCertificateInfo parser30 "cert.pem" ⟨0, 1, "", ""⟩ 1).daysUntilExpiry < 0) =
      False := by
  refine ⟨by decide, by decide, eq_false (by decide), eq_false (by decide)⟩

/-- Claim C2, amended: `daysUntilExpiry` is `(expirationDate − now) / 24h`
truncated toward zero, which agrees with the floor formula only for
unexpired certificates; an expired certificate has `isExpired = true`
and `daysUntilExpiry ≤ 0`, with value `0` exactly when it expired less
than 24h before the sample. -/
theorem c2_amended (p : Parser) (fp : String) (cert : Certificate) (now : Int) :
    (now ≤ cert.notAfter →
      (buildCertificateInfo p fp cert now).daysUntilExpiry =
        Int.fdiv (cert.notAfter - now) nsPerDay) ∧
    (cert.notAfter < now →
      (buildCertificateInfo p fp cert now).isExpired = true ∧
      (buildCertificateInfo p fp cert now).daysUntilExpiry ≤ 0 ∧
      ((buildCertificateInfo p fp cert now).daysUntilExpiry = 0 ↔
        now - cert.notAfter < nsPerDay)) := by
  constructor
  · intro h
    show Int.tdiv (cert.notAfter - now) nsPerDay = Int.fdiv (cert.notAfter - now) nsPerDay
    exact tdiv_eq_fdiv_of_nonneg (by omega) (by decide)
  · intro h
    have hc := tdiv_neg_cases (show (0 : Int) < nsPerDay by decide)
      (show cert.notAfter - now < 0 by omega)
    refine ⟨by simp [buildCertificateInfo, h], hc.1, ?_⟩
    rw [show (buildCertificateInfo p fp cert now).daysUntilExpiry =
      Int.tdiv (cert.notAfter - now) nsPerDay from rfl, hc.2]
    omega

/-- Witness for `c2_amended` at concrete inputs discharging each
hypothesis. -/
theorem c2_amended_witness :
    (buildCertificateInfo parser30 "w.pem" sampleCert 0).daysUntilExpiry =
      Int.fdiv (sampleCert.notAfter - 0) nsPerDay ∧
    ((buildCertificateInfo parser30 "w.pem" ⟨0, 1, "", ""⟩ 1).isExpired = true ∧
      (buildCertificateInfo parser30 "w.pem" ⟨0, 1, "", ""⟩ 1).daysUntilExpiry ≤ 0 ∧
      ((buildCertificateInfo parser30 "w.pem" ⟨0, 1, "", ""⟩ 1).daysUntilExpiry = 0 ↔
        1 - (0 : Int) < nsPerDay)) :=
  ⟨(c2_amended parser30 "w.pem" sampleCert 0).1 (by decide),
   (c2_amended parser30 "w.pem" ⟨0, 1, "", ""⟩ 1).2 (by decide)⟩

/-- Claim C3: `isExpiringSoon` holds iff `0 ≤ daysUntilExpiry ≤
threshold`; with threshold 30 and computed days 90, 15, 180 the flags
are false, true, false. -/
theorem c3_expiring_soon :
    (∀ (p : Parser) (fp : String) (cert : Certificate) (now : Int),
      (buildCertificateInfo p fp cert now).isExpiringSoon = true ↔
        0 ≤ (buildCertificateInfo p fp cert now).daysUntilExpiry ∧
        (buildCertificateInfo p fp cert now).daysUntilExpiry ≤ p.daysThreshold) ∧
    (buildCertificateInfo parser30 "a.pem" ⟨90 * nsPerDay, 1, "", ""⟩ 0).isExpiringSoon
      = false ∧
    (buildCertificateInfo parser30 "b.pem" ⟨15 * nsPerDay, 1, "", ""⟩ 0).isExpiringSoon
      = true ∧
    (buildCertificateInfo parser30 "c.pem" ⟨180 * nsPerDay, 1, "", ""⟩ 0).isExpiringSoon
      = false := by
  refine ⟨?_, by decide, by decide, by decide⟩
  intro p fp cert now
  simp only [buildCertificateInfo, Bool.and_eq_true, decide_eq_true_eq]
  exact ⟨fun ⟨a, b⟩ => ⟨b, a⟩, fun ⟨a, b⟩ => ⟨b, a⟩⟩

/-- Claim C10: a certificate that expired strictly less than 24h before
the sampled time has `isExpired = true`, `daysUntilExpiry = 0` and, for
any nonnegative threshold, `isExpiringSoon = true`. -/
theorem c10_expired_within_day (p : Parser) (fp : String) (cert : Certificate) (now : Int)
    (h1 : cert.notAfter < now) (h2 : now - cert.notAfter < nsPerDay)
    (h3 : 0 ≤ p.daysThreshold) :
    (buildCertificateInfo p fp cert now).isExpired = true ∧
    (buildCertificateInfo p fp cert now).daysUntilExpiry = 0 ∧
    (buildCertificateInfo p fp cert now).isExpiringSoon = true := by
  have hc := tdiv_neg_cases (show (0 : Int) < nsPerDay by decide)
    (show cert.notAfter - now < 0 by omega)
  have hdays : (buildCertificateInfo p fp cert now).daysUntilExpiry = 0 :=
    hc.2.mpr (by omega)
  refine ⟨by simp [buildCertificateInfo, h1], hdays, ?_⟩
  have : Int.tdiv (cert.notAfter - now) nsPerDay = 0 := hdays
  simp [buildCertificateInfo, this, h3]

/-- Witness for `c10_expired_within_day`: expired one nanosecond ago,
threshold 30. -/
theorem c10_expired_within_day_witness :
    ((0 : Int) < 1 ∧ (1 : Int) - 0 < nsPerDay ∧ (0 : Int) ≤ parser30.daysThreshold) ∧
    ((buildCertificateInfo parser30 "w10.pem" ⟨0, 1, "", ""⟩ 1).isExpired = true ∧
      (buildCertificateInfo parser30 "w10.pem" ⟨0, 1, "", ""⟩ 1).daysUntilExpiry = 0 ∧
      (buildCertificateInfo parser30 "w10.pem" ⟨0, 1, "", ""⟩ 1).isExpiringSoon = true) :=
  ⟨⟨by decide, by decide, by decide⟩,
   c10_expired_within_day parser30 "w10.pem" ⟨0, 1, "", ""⟩ 1 (by decide) (by decide)
     (by decide)⟩

/-- Claim C1, counterexample: on a two-certificate chain whose blocks
carry the same certificate, with the clock advancing 12h between the
two `time.Now()` calls, no single shared timestamp can reproduce the
records the parser builds — the two records disagree on
`daysUntilExpiry` despite equal expiration dates, so the sample is not
captured once per call. -/
theorem c1_counterexample :
    (∃ sharedNow : Int,
      ParseData sampleParseCert parser30 "chain.pem" ⟨[certBlock, certBlock], []⟩
        [0, 43200000000000] =
      .ok [buildCertificateInfo parser30 "chain.pem" sampleCert sharedNow,
           buildCertificateInfo parser30 "chain.pem" sampleCert sharedNow]) = False := by
  apply eq_false
  rintro ⟨now, h⟩
  have h3 : ParseData sampleParseCert parser30 "chain.pem" ⟨[certBlock, certBlock], []⟩
      [0, 43200000000000] =
      .ok [buildCertificateInfo parser30 "chain.pem" sampleCert 0,
           buildCertificateInfo parser30 "chain.pem" sampleCert 43200000000000] := rfl
  rw [h3] at h
  have h4 := Except.ok.inj h
  have h5 := congrArg (fun l => (l.headD default).daysUntilExpiry) h4
  have h6 := congrArg (fun l => (l.tail.headD default).daysUntilExpiry) h4
  simp only [List.headD_cons, List.tail_cons] at h5 h6
  have e1 : (buildCertificateInfo parser30 "chain.pem" sampleCert 0).daysUntilExpiry =
      1 := by decide
  have e2 : (buildCertificateInfo parser30 "chain.pem" sampleCert
      43200000000000).daysUntilExpiry = 0 := by decide
  rw [e1] at h5
  rw [e2] at h6
  rw [← h5] at h6
  exact absurd h6 (by decide)

/-- Claim C1, amended: inside one `ParseData` call the current time is
re-sampled per record (one `time.Now()` call per
`buildCertificateInfo`): the k-th record of the file is stamped with
the k-th clock sample, so records of one chain may observe different
timestamps. -/
theorem c1_amended (parseCert : List Nat → Option Certificate) (p : Parser) (fp : String)
    (blocks : List PemBlock) (raw : List Nat) (clock : List Int)
    (hT : ∀ b ∈ blocks, b.type_ = "CERTIFICATE")
    (hP : ∀ b ∈ blocks, (parseCert b.bytes).isSome)
    (hNe : blocks ≠ []) :
    ParseData parseCert p fp ⟨blocks, raw⟩ clock =
      .ok (pemRecords parseCert p fp blocks clock) ∧
    ∀ (i : Nat) (hi : i < blocks.length) (cert : Certificate),
      parseCert (blocks.get ⟨i, hi⟩).bytes = some cert →
      (pemRecords parseCert p fp blocks clock).getD i default =
        buildCertificateInfo p fp cert (clock.getD i 0) :=
  ⟨ParseData_eq_pemRecords parseCert p fp blocks raw clock hT hP hNe,
   fun i hi cert hc => pemRecords_getD parseCert p fp blocks clock i hi cert hP hc⟩

/-- Witness for `c1_amended`: a two-block chain with distinct clock
samples 5 and 7. -/
theorem c1_amended_witness :
    ParseData sampleParseCert parser30 "w1.pem" ⟨[certBlock, certBlock], []⟩ [5, 7] =
      .ok (pemRecords sampleParseCert parser30 "w1.pem" [certBlock, certBlock] [5, 7]) ∧
    (pemRecords sampleParseCert parser30 "w1.pem" [certBlock, certBlock] [5, 7]).getD 1
        default =
      buildCertificateInfo parser30 "w1.pem" sampleCert ([5, 7].getD 1 0) :=
  ⟨(c1_amended sampleParseCert parser30 "w1.pem" [certBlock, certBlock] [] [5, 7]
      (by decide) (by decide) (by decide)).1,
   (c1_amended sampleParseCert parser30 "w1.pem" [certBlock, certBlock] [] [5, 7]
      (by decide) (by decide) (by decide)).2 1 (by decide) sampleCert (by decide)⟩

/-- Claim C4: a buffer of N well-formed "CERTIFICATE" PEM blocks parses
to exactly N records, one per block in block order (`pemRecords`
produces them in encounter order). -/
theorem c4_n_blocks_n_records (parseCert : List Nat → Option Certificate) (p : Parser)
    (fp : String) (blocks : List PemBlock) (raw : List Nat) (clock : List Int)
    (hT : ∀ b ∈ blocks, b.type_ = "CERTIFICATE")
    (hP : ∀ b ∈ blocks, (parseCert b.bytes).isSome)
    (hNe : blocks ≠ []) :
    ParseData parseCert p fp ⟨blocks, raw⟩ clock =
      .ok (pemRecords parseCert p fp blocks clock) ∧
    (pemRecords parseCert p fp blocks clock).length = blocks.length :=
  ⟨ParseData_eq_pemRecords parseCert p fp blocks raw clock hT hP hNe,
   pemRecords_length parseCert p fp blocks clock hP⟩

/-- Witness for `c4_n_blocks_n_records`: three certificate blocks. -/
theorem c4_n_blocks_n_records_witness :
    ParseData sampleParseCert parser30 "w4.pem" ⟨[certBlock, certBlock, certBlock], []⟩
        [0, 0, 0] =
      .ok (pemRecords sampleParseCert parser30 "w4.pem" [certBlock, certBlock, certBlock]
        [0, 0, 0]) ∧
    (pemRecords sampleParseCert parser30 "w4.pem" [certBlock, certBlock, certBlock]
        [0, 0, 0]).length = 3 :=
  c4_n_blocks_n_records sampleParseCert parser30 "w4.pem" [certBlock, certBlock, certBlock]
    [] [0, 0, 0] (by decide) (by decide) (by decide)

/-- Claim C5, counterexample: a buffer with no PEM blocks whose
whole-buffer DER interpretation fails makes the parser return the
generic parse error, not the distinct no-certificates-found error. -/
theorem c5_counterexample :
    ParseData (fun _ => none) parser30 "empty.pem" ⟨[], [0]⟩ [] = .error .parseError ∧
    (ParseData (fun _ => none) parser30 "empty.pem" ⟨[], [0]⟩ [] =
      .error .noCertificateFound) = False := by
  refine ⟨rfl, ?_⟩
  have h : ParseData (fun _ => none) parser30 "empty.pem" ⟨[], [0]⟩ [] =
      .error ParseErr.parseError := rfl
  simp [h]

/-- Claim C5, amended: when no block is of type "CERTIFICATE" and the
whole-buffer DER fallback fails, `ParseData` fails with `ParseError`;
the `NoCertificateFoundError` branch is dead (the fallback either
errors first or contributes a record). -/
theorem c5_amended (parseCert : List Nat → Option Certificate) (p : Parser) (fp : String)
    (blocks : List PemBlock) (raw : List Nat) (clock : List Int)
    (hT : ∀ b ∈ blocks, b.type_ ≠ "CERTIFICATE")
    (hD : parseCert raw = none) :
    ParseData parseCert p fp ⟨blocks, raw⟩ clock = .error .parseError := by
  unfold ParseData
  rw [parseDataLoop_no_cert parseCert p fp blocks clock [] hT]
  simp [hD]

/-- Witness for `c5_amended`: a lone private-key block and an
undecodable buffer. -/
theorem c5_amended_witness :
    (∀ b ∈ [keyBlock], b.type_ ≠ "CERTIFICATE") ∧
    ParseData (fun _ => none) parser30 "w5.pem" ⟨[keyBlock], [9]⟩ [] =
      .error .parseError :=
  ⟨by decide, c5_amended (fun _ => none) parser30 "w5.pem" [keyBlock] [9] []
    (by decide) rfl⟩

/-- Claim C9: PEM blocks whose type is not "CERTIFICATE" are skipped
silently — `ParseData` gives the same result as on the buffer with
those blocks removed; in particular a key block followed by a
certificate block yields exactly the certificate's record. -/
theorem c9_non_cert_blocks_skipped :
    (∀ (parseCert : List Nat → Option Certificate) (p : Parser) (fp : String)
      (blocks : List PemBlock) (raw : List Nat) (clock : List Int),
      ParseData parseCert p fp ⟨blocks, raw⟩ clock =
        ParseData parseCert p fp
          ⟨blocks.filter fun b => b.type_ == "CERTIFICATE", raw⟩ clock) ∧
    ParseData sampleParseCert parser30 "mixed.pem" ⟨[keyBlock, certBlock], []⟩ [0] =
      .ok [buildCertificateInfo parser30 "mixed.pem" sampleCert 0] := by
  refine ⟨?_, by rfl⟩
  intro parseCert p fp blocks raw clock
  unfold ParseData
  rw [parseDataLoop_filter]

/-- Claim C6: a file whose stat-reported size exceeds `MaxFileSize` is
rejected with the too-large error, and the outcome is the same for any
file contents and any read behaviour — the metadata check alone
decides it, before any read. -/
theorem c6_too_large_metadata_only (parseCert : List Nat → Option Certificate)
    (p : Parser) (fp : String) (size : Int) (readOk readOk2 : Bool)
    (content content2 : FileData) (clock clock2 : List Int)
    (h : MaxFileSize < size) :
    ParseFileWithContext parseCert p fp ⟨true, size, readOk, content⟩ clock =
      .error .fileTooLarge ∧
    ParseFileWithContext parseCert p fp ⟨true, size, readOk2, content2⟩ clock2 =
      ParseFileWithContext parseCert p fp ⟨true, size, readOk, content⟩ clock := by
  constructor <;> simp [ParseFileWithContext, h]

/-- Witness for `c6_too_large_metadata_only`: one byte over the 100MB
limit, contrasting contents. -/
theorem c6_too_large_metadata_only_witness :
    MaxFileSize < (104857601 : Int) ∧
    ParseFileWithContext sampleParseCert parser30 "big.pem"
        ⟨true, 104857601, true, ⟨[certBlock], [0]⟩⟩ [0] = .error .fileTooLarge ∧
    ParseFileWithContext sampleParseCert parser30 "big.pem"
        ⟨true, 104857601, false, ⟨[], []⟩⟩ [] =
      ParseFileWithContext sampleParseCert parser30 "big.pem"
        ⟨true, 104857601, true, ⟨[certBlock], [0]⟩⟩ [0] :=
  ⟨by decide,
   (c6_too_large_metadata_only sampleParseCert parser30 "big.pem" 104857601 true false
      ⟨[certBlock], [0]⟩ ⟨[], []⟩ [0] [] (by decide)).1,
   (c6_too_large_metadata_only sampleParseCert parser30 "big.pem" 104857601 true false
      ⟨[certBlock], [0]⟩ ⟨[], []⟩ [0] [] (by decide)).2⟩

/-- Claim C7, counterexample: a worker that receives path "a" from the
queue while the shutdown flag is set consumes the path but returns
without sending any outcome — one consumed path, zero outcomes. -/
theorem c7_counterexample :
    processFiles (fun _ => { certInfos := [], error := none }) ["a"]
      [{ ctxDone := false, shuttingDown := true, ctxDoneAtSend := false }] = (["a"], []) ∧
    ((processFiles (fun _ => { certInfos := [], error := none }) ["a"]
        [{ ctxDone := false, shuttingDown := true, ctxDoneAtSend := false }]).2.length =
      (processFiles (fun _ => { certInfos := [], error := none }) ["a"]
        [{ ctxDone := false, shuttingDown := true, ctxDoneAtSend := false }]).1.length) =
      False := by
  refine ⟨by decide, ?_⟩
  have h : processFiles (fun _ => { certInfos := [], error := none }) ["a"]
      [{ ctxDone := false, shuttingDown := true, ctxDoneAtSend := false }] =
      (["a"], []) := by decide
  simp [h]

/-- Claim C7, amended: as long as no iteration observes the shutdown
flag or a cancellation while sending, every path the worker consumes
produces exactly one outcome, in order; a path received after shutdown
is triggered (or whose outcome send is cancelled) is consumed and
dropped without an outcome. -/
theorem c7_amended (outcomeOf : String → ScanResult) :
    ∀ (fileCh : List String) (sched : List WorkerStep),
      (∀ st ∈ sched, st.shuttingDown = false ∧ st.ctxDoneAtSend = false) →
      (processFiles outcomeOf fileCh sched).2 =
        (processFiles outcomeOf fileCh sched).1.map outcomeOf
  | [], _, _ => rfl
  | fp :: rest, sched, h => by
    cases sched with
    | nil =>
      have ih := c7_amended outcomeOf rest []
        (fun st hst => absurd hst (List.not_mem_nil st))
      simp [processFiles, idleStep, ih]
    | cons s ss =>
      obtain ⟨hs1, hs2⟩ := h s (List.mem_cons_self s ss)
      have ih := c7_amended outcomeOf rest ss
        (fun st hst => h st (List.mem_cons_of_mem _ hst))
      cases hsc : s.ctxDone with
      | true => simp [processFiles, hsc]
      | false => simp [processFiles, hsc, hs1, hs2, ih]

/-- Witness for `c7_amended`: two paths, undisturbed schedule. -/
theorem c7_amended_witness :
    (∀ st ∈ ([] : List WorkerStep), st.shuttingDown = false ∧ st.ctxDoneAtSend = false) ∧
    (processFiles (fun _ => { certInfos := [], error := none }) ["a", "b"] []).2 =
      (processFiles (fun _ => { certInfos := [], error := none }) ["a", "b"] []).1.map
        (fun _ => { certInfos := [], error := none }) :=
  ⟨by simp, c7_amended (fun _ => { certInfos := [], error := none }) ["a", "b"] []
    (by simp)⟩

/-- Claim C8: `Wait` returns at the earlier of counter-reaches-zero and
the timeout: never after the timeout; immediately when the counter is
already zero at the call; strictly before the timeout when the counter
reaches zero at some instant before it; and exactly at the timeout when
the counter never reaches zero (e.g. an `Add(1)` never matched by
`Done()`). -/
theorem waitReturnTime_some {t m : Nat} {ops : List (Nat × Int)}
    (hm : wgZeroAt ops = some m) : waitReturnTime t ops = min m t := by
  unfold waitReturnTime
  rw [hm]

theorem waitReturnTime_none {t : Nat} {ops : List (Nat × Int)}
    (hm : wgZeroAt ops = none) : waitReturnTime t ops = t := by
  unfold waitReturnTime
  rw [hm]

theorem c8_wait_bounded (t : Nat) (ops : List (Nat × Int)) :
    waitReturnTime t ops ≤ t ∧
    (counterAt ops 0 = 0 → waitReturnTime t ops = 0) ∧
    (∀ d ∈ zeroCandidates ops, d < t → waitReturnTime t ops < t) ∧
    (zeroCandidates ops = [] → waitReturnTime t ops = t) := by
  refine ⟨?_, ?_, ?_, ?_⟩
  · cases hz : wgZeroAt ops with
    | some m => rw [waitReturnTime_some hz]; omega
    | none => rw [waitReturnTime_none hz]
  · intro h0
    have hmem : (0 : Nat) ∈ zeroCandidates ops := by
      simp [zeroCandidates, List.mem_filter, h0]
    obtain ⟨m, hm, hm0⟩ := earliest_of_mem _ 0 hmem
    rw [waitReturnTime_some hm]
    omega
  · intro d hd hdt
    obtain ⟨m, hm, hmd⟩ := earliest_of_mem _ d hd
    rw [waitReturnTime_some hm]
    omega
  · intro h
    refine waitReturnTime_none ?_
    unfold wgZeroAt
    rw [h]
    rfl

/-- Witness for `c8_wait_bounded`: an already-zero counter, work
completing at instant 2 with timeout 5, and an `Add(1)` never matched
by `Done()`. -/
theorem c8_wait_bounded_witness :
    (counterAt ([] : List (Nat × Int)) 0 = 0 ∧ waitReturnTime 5 [] = 0) ∧
    ((2 : Nat) ∈ zeroCandidates [(0, 1), (2, -1)] ∧ 2 < 5 ∧
      waitReturnTime 5 [(0, 1), (2, -1)] < 5) ∧
    (zeroCandidates [(0, 1)] = [] ∧ waitReturnTime 5 [(0, 1)] = 5) :=
  ⟨⟨by decide, (c8_wait_bounded 5 []).2.1 (by decide)⟩,
   ⟨by decide, by decide,
     (c8_wait_bounded 5 [(0, 1), (2, -1)]).2.2.1 2 (by decide) (by decide)⟩,
   ⟨by decide, (c8_wait_bounded 5 [(0, 1)]).2.2.2 (by decide)⟩⟩
